import Mathlib

/-!
Shallow embedding of the Flight-Search-Engine core: the offer normalizer
(`src/lib/flightTransformers.ts`), the static carrier table
(`src/lib/constants.ts`) and the view-engine store (`src/store/flightStore.ts`).

Modelling conventions:
* Timestamps (`departure.at` / `arrival.at`) are modelled as whole minutes
  (`Int`).  `date-fns.differenceInMinutes` on whole-minute instants is exact
  integer subtraction.  JavaScript `Math.floor(x / 60)` is `Int.fdiv` and
  JavaScript `%` (remainder, sign of the dividend) is `Int.tmod`.
* Prices are `ℚ`; `parseFloat(offer.price.grandTotal)` is modelled by storing
  the parsed numeric value directly (no claim depends on `parseFloat` itself).
* JavaScript template-literal number rendering is standard decimal rendering,
  modelled by `natStr` / `intStr` below.
* A JavaScript `x || y` fallback on strings treats `undefined` and `""` as
  falsy; this is `jsStrOr`.
* Code paths that throw (`TypeError` on reading a field of `undefined`) are
  modelled by returning `none`.
-/

/-- Fuel-driven digit renderer (structural recursion so the kernel can
evaluate it). -/
def natDigitsGo : Nat → Nat → List Char
  | 0, _ => []
  | fuel + 1, n =>
    if n < 10 then [Char.ofNat (48 + n)]
    else natDigitsGo fuel (n / 10) ++ [Char.ofNat (48 + n % 10)]

/-- Decimal digit characters of a natural number, most significant first
(the rendering JavaScript template literals produce for integers). -/
def natDigits (n : Nat) : List Char := natDigitsGo (n + 1) n

/-- Decimal string of a natural number. -/
def natStr (n : Nat) : String := ⟨natDigits n⟩

/-- Decimal string of an integer (JavaScript number rendering for integers). -/
def intStr (i : Int) : String :=
  if i < 0 then "-" ++ ⟨natDigits i.natAbs⟩ else ⟨natDigits i.toNat⟩

/-- Value of a list of decimal digit characters (`parseInt` on a digit run). -/
def parseNatChars (l : List Char) : Nat :=
  l.foldl (fun a c => a * 10 + (c.toNat - 48)) 0

/-- Leftmost occurrence of the literal `PT` in the character stream; returns
the remainder after it.  Models the required prefix of the regex
`/PT(?:(\d+)H)?(?:(\d+)M)?/` in `parseDuration`. -/
def findPT : List Char → Option (List Char)
  | 'P' :: 'T' :: rest => some rest
  | _ :: rest => findPT rest
  | [] => none

/-- The two optional capture groups `(?:(\d+)H)?(?:(\d+)M)?` applied after
`PT`: a maximal digit run immediately followed by `H` (else the group matches
nothing), then likewise for `M`. -/
def parseAfterPT (rest : List Char) : Option Nat × Option Nat :=
  let s1 := List.span Char.isDigit rest
  let hm : Option Nat × List Char :=
    if s1.1 ≠ [] ∧ s1.2.head? = some 'H' then (some (parseNatChars s1.1), s1.2.tail)
    else (none, rest)
  let s2 := List.span Char.isDigit hm.2
  let minutes : Option Nat :=
    if s2.1 ≠ [] ∧ s2.2.head? = some 'M' then some (parseNatChars s2.1) else none
  (hm.1, minutes)

/-- `parseDuration` from `src/lib/flightTransformers.ts`: render an ISO-8601
`PT#H#M` duration as `"{h}h {m}m"` / `"{h}h"` / `"{m}m"`, returning the input
unchanged when the regex does not match or both components are absent/zero. -/
def parseDuration (duration : String) : String :=
  match findPT duration.data with
  | none => duration
  | some rest =>
    let hm := parseAfterPT rest
    let hours := hm.1.getD 0
    let minutes := hm.2.getD 0
    if hours ≠ 0 ∧ minutes ≠ 0 then natStr hours ++ "h " ++ natStr minutes ++ "m"
    else if hours ≠ 0 then natStr hours ++ "h"
    else if minutes ≠ 0 then natStr minutes ++ "m"
    else duration

/-- Scanner for the regex `/(\d+)h\s*(\d+)?m?/` used by
`parseDurationToMinutes`: find the leftmost position where a (maximal) digit
run is immediately followed by `h`; return that run and the remainder after
the `h`.  Trying each successive start position is exactly the regex engine's
leftmost-match search, and maximal munch is equivalent to the greedy `(\d+)`
because every proper prefix of a digit run is followed by a digit, not `h`. -/
def scanHours : List Char → Option (List Char × List Char)
  | [] => none
  | c :: rest =>
    let s := List.span Char.isDigit (c :: rest)
    if s.1 ≠ [] ∧ s.2.head? = some 'h' then some (s.1, s.2.tail)
    else scanHours rest

/-- `parseDurationToMinutes` from `src/lib/flightTransformers.ts`: recover
total minutes from a rendered duration label via `/(\d+)h\s*(\d+)?m?/`;
no match (in particular any label without an `h` part) yields `0`. -/
def parseDurationToMinutes (duration : String) : Nat :=
  match scanHours duration.data with
  | none => 0
  | some (d1, r1) =>
    let hours := parseNatChars d1
    let r2 := (List.span Char.isWhitespace r1).2
    let d2 := (List.span Char.isDigit r2).1
    let minutes := if d2 = [] then 0 else parseNatChars d2
    hours * 60 + minutes

/-- JavaScript `x || y` on an optional string: `undefined` and `""` fall
through to `y`. -/
def jsStrOr (x : Option String) (y : String) : String :=
  match x with
  | some v => if v = "" then y else v
  | none => y

/-- `AIRLINE_NAMES` from `src/lib/constants.ts`. -/
def AIRLINE_NAMES : List (String × String) :=
  [("AA", "American Airlines"), ("DL", "Delta Air Lines"), ("UA", "United Airlines"),
   ("BA", "British Airways"), ("LH", "Lufthansa"), ("AF", "Air France"),
   ("KL", "KLM"), ("EK", "Emirates"), ("QR", "Qatar Airways"),
   ("SQ", "Singapore Airlines"), ("CX", "Cathay Pacific"), ("QF", "Qantas"),
   ("AC", "Air Canada"), ("NH", "ANA"), ("JL", "Japan Airlines"),
   ("TK", "Turkish Airlines"), ("EY", "Etihad Airways"), ("SV", "Saudi Arabian Airlines"),
   ("WN", "Southwest Airlines"), ("B6", "JetBlue"), ("AS", "Alaska Airlines"),
   ("F9", "Frontier Airlines"), ("NK", "Spirit Airlines")]

/-- `AIRLINE_LOGO_URL` from `src/lib/constants.ts`. -/
def AIRLINE_LOGO_URL (carrierCode : String) : String :=
  "https://images.kiwi.com/airlines/64/" ++ carrierCode ++ ".png"

/-- `getAirlineName`: per-search dictionary, else static table, else the raw
code, with JavaScript `||` (falsy empty string) at each step. -/
def getAirlineName (carrierCode : String)
    (dictionaries : Option (List (String × String))) : String :=
  jsStrOr (dictionaries.bind fun d => d.lookup carrierCode)
    (jsStrOr (AIRLINE_NAMES.lookup carrierCode) carrierCode)

/-- One endpoint of a segment: airport code and timestamp (`at`, modelled in
whole minutes). -/
structure SegmentStop where
  iataCode : String
  atTime : Int
deriving DecidableEq

/-- A flight segment as read by the transformer (fields the code never reads
are omitted). -/
structure FlightSegment where
  departure : SegmentStop
  arrival : SegmentStop
  carrierCode : String
deriving DecidableEq

/-- `calculateStops`: `Math.max(0, segments.length - 1)`. -/
def calculateStops (segments : List FlightSegment) : Nat :=
  max 0 (segments.length - 1)

/-- `getLayovers`: for each adjacent pair, the gap in minutes between the
next departure and the previous arrival, rendered as
`"{airport} ({H}h {M}m)"` when `Math.floor(gap/60) > 0`, else
`"{airport} ({M}m)"`, with `H = Math.floor(gap/60)` (`Int.fdiv`) and
`M = gap % 60` (JavaScript remainder, `Int.tmod`). -/
def getLayovers : List FlightSegment → List String
  | seg1 :: seg2 :: rest =>
    let layoverMinutes : Int := seg2.departure.atTime - seg1.arrival.atTime
    let layoverHours := Int.fdiv layoverMinutes 60
    let layoverMins := Int.tmod layoverMinutes 60
    let layoverText :=
      if layoverHours > 0 then intStr layoverHours ++ "h " ++ intStr layoverMins ++ "m"
      else intStr layoverMins ++ "m"
    (seg1.arrival.iataCode ++ " (" ++ layoverText ++ ")") :: getLayovers (seg2 :: rest)
  | _ => []

/-- `format(parseISO(t), "HH:mm")` on a whole-minute timestamp. -/
def formatHHmm (t : Int) : String :=
  let m := Int.emod t 1440
  let pad : Int → String := fun n => if n < 10 then "0" ++ intStr n else intStr n
  pad (m / 60) ++ ":" ++ pad (m % 60)

/-- An itinerary: ordered segments plus the total ISO-8601 duration string. -/
structure FlightItinerary where
  segments : List FlightSegment
  duration : String
deriving DecidableEq

/-- The price block of an offer; `grandTotal` holds the numeric value
`parseFloat` yields from the source's string field. -/
structure OfferPrice where
  currency : String
  grandTotal : ℚ
deriving DecidableEq

/-- A raw offer, restricted to the fields the transformer reads. -/
structure FlightOffer where
  id : String
  itineraries : List FlightItinerary
  price : OfferPrice
  validatingAirlineCodes : List String
deriving DecidableEq

/-- A transformed segment: the raw segment plus the resolved carrier name. -/
structure CardSegment where
  departure : SegmentStop
  arrival : SegmentStop
  carrierCode : String
  carrierName : String
deriving DecidableEq

/-- `FlightCardData`: the normalized flight record. -/
structure FlightCardData where
  id : String
  airline : String
  airlineLogo : String
  departureTime : String
  arrivalTime : String
  departureAirport : String
  arrivalAirport : String
  duration : String
  stops : Nat
  price : ℚ
  currency : String
  segments : List CardSegment
  layovers : List String
deriving DecidableEq

/-- `transformFlightOffer`.  The source reads `offer.itineraries[0]` and
`itinerary.segments[0]` unguarded; on a missing itinerary or empty segment
list it throws a `TypeError` partway through, which the embedding models as
`none` (no partial record is ever produced either way). -/
def transformFlightOffer (offer : FlightOffer)
    (carrierDictionary : Option (List (String × String))) : Option FlightCardData :=
  match offer.itineraries with
  | [] => none
  | itinerary :: _ =>
    match itinerary.segments with
    | [] => none
    | firstSegment :: restSegments =>
      let segs := firstSegment :: restSegments
      let lastSegment := segs.getLast (List.cons_ne_nil _ _)
      let primaryCarrier := jsStrOr offer.validatingAirlineCodes.head? firstSegment.carrierCode
      some
        { id := offer.id
          airline := getAirlineName primaryCarrier carrierDictionary
          airlineLogo := AIRLINE_LOGO_URL primaryCarrier
          departureTime := formatHHmm firstSegment.departure.atTime
          arrivalTime := formatHHmm lastSegment.arrival.atTime
          departureAirport := firstSegment.departure.iataCode
          arrivalAirport := lastSegment.arrival.iataCode
          duration := parseDuration itinerary.duration
          stops := calculateStops segs
          price := offer.price.grandTotal
          currency := offer.price.currency
          segments := segs.map fun s =>
            { departure := s.departure, arrival := s.arrival,
              carrierCode := s.carrierCode,
              carrierName := getAirlineName s.carrierCode carrierDictionary }
          layovers := getLayovers segs }

/-- The `dictionaries` block of a provider response. -/
structure AmadeusDictionaries where
  carriers : Option (List (String × String))
deriving DecidableEq

/-- A provider response: offer list plus optional dictionaries. -/
structure AmadeusFlightOffersResponse where
  data : List FlightOffer
  dictionaries : Option AmadeusDictionaries
deriving DecidableEq

/-- Fallible map: `Array.map` with a callback that can throw — the first
throw aborts the whole map, so any `none` yields `none`. -/
def mapOrNone {α β : Type} (f : α → Option β) : List α → Option (List β)
  | [] => some []
  | a :: t =>
    match f a, mapOrNone f t with
    | some b, some bs => some (b :: bs)
    | _, _ => none

/-- `transformFlightOffers`: `response.data.map(...)` with the shared carrier
dictionary.  A throw from any single transform propagates out of `map`, so a
single malformed offer fails the whole batch: modelled by `mapOrNone`. -/
def transformFlightOffers (response : AmadeusFlightOffersResponse) :
    Option (List FlightCardData) :=
  let carrierDictionary := response.dictionaries.bind fun d => d.carriers
  mapOrNone (fun offer => transformFlightOffer offer carrierDictionary) response.data

/-- Structural malformedness: no itinerary, or the first itinerary has no
segments.  Exactly the inputs on which `transformFlightOffer` throws. -/
def isMalformed (offer : FlightOffer) : Bool :=
  match offer.itineraries with
  | [] => true
  | itinerary :: _ => itinerary.segments.isEmpty

/-- A point of the price chart projection. -/
structure PriceDataPoint where
  time : String
  price : ℚ
  flightId : String
  stops : Nat
  airline : String
deriving DecidableEq

/-- `generatePriceChartData`. -/
def generatePriceChartData (flights : List FlightCardData) : List PriceDataPoint :=
  flights.map fun flight =>
    { time := flight.departureTime, price := flight.price, flightId := flight.id,
      stops := flight.stops, airline := flight.airline }

/-- Code-point comparison on character lists: the order JavaScript's default
`Array.sort` and `localeCompare` induce on these plain-ASCII labels. -/
def strLeChars : List Char → List Char → Bool
  | [], _ => true
  | _ :: _, [] => false
  | a :: as, b :: bs => if a = b then strLeChars as bs else decide (a < b)

/-- Code-point string comparison. -/
def strLe (a b : String) : Bool := strLeChars a.data b.data

/-- `extractUniqueAirlines`: `Set` dedup (first occurrence kept) then default
lexicographic sort.  `insertionSort` is used as the stable sort: JavaScript
`Array.sort` is stable, and stable sorts of the same list under the same
total preorder coincide elementwise. -/
def extractUniqueAirlines (flights : List FlightCardData) : List String :=
  List.insertionSort (fun a b => strLe a b = true)
    ((flights.map fun f => f.airline).eraseDups)

/-- Inclusive price window. -/
structure PriceRange where
  min : ℚ
  max : ℚ
deriving DecidableEq

/-- `extractPriceRange`: `{0, 1000}` on an empty list, else the floor of the
minimum price and the ceiling of the maximum price (`Math.floor` /
`Math.ceil`, i.e. `Rat.floor` / `Rat.ceil`). -/
def extractPriceRange (flights : List FlightCardData) : PriceRange :=
  match flights with
  | [] => { min := 0, max := 1000 }
  | f :: rest =>
    let prices := (f :: rest).map fun x => x.price
    { min := (Rat.floor (prices.foldl min f.price) : ℤ)
      max := (Rat.ceil (prices.foldl max f.price) : ℤ) }

/-- The four sort keys. -/
inductive SortKey where
  | price
  | duration
  | departure
  | arrival
deriving DecidableEq

/-- `sortFlights`: stable ascending sort by the selected key (`Array.sort`
with a comparator is stable, as is `insertionSort`; `localeCompare` on
zero-padded `HH:mm` labels is code-point order). -/
def sortFlights (flights : List FlightCardData) (sortBy : SortKey) :
    List FlightCardData :=
  match sortBy with
  | .price => List.insertionSort (fun a b => a.price ≤ b.price) flights
  | .duration => List.insertionSort (fun a b =>
      parseDurationToMinutes a.duration ≤ parseDurationToMinutes b.duration) flights
  | .departure =>
    List.insertionSort (fun a b => strLe a.departureTime b.departureTime = true) flights
  | .arrival =>
    List.insertionSort (fun a b => strLe a.arrivalTime b.arrivalTime = true) flights

/-- The filter criteria record `filterFlights` receives. -/
structure FilterCriteria where
  priceRange : PriceRange
  stops : List Nat
  airlines : List String
deriving DecidableEq

/-- `filterFlights`: price window (inclusive), stop buckets (`2` means two or
more, any other value exact; empty list passes all), airline membership
(empty list passes all). -/
def filterFlights (flights : List FlightCardData) (filters : FilterCriteria) :
    List FlightCardData :=
  flights.filter fun flight =>
    if flight.price < filters.priceRange.min ∨ filters.priceRange.max < flight.price then
      false
    else if 0 < filters.stops.length ∧
        (filters.stops.any fun stopCount =>
          if stopCount = 2 then decide (2 ≤ flight.stops)
          else decide (flight.stops = stopCount)) = false then
      false
    else if 0 < filters.airlines.length ∧ flight.airline ∉ filters.airlines then
      false
    else
      true

/-- The active filter specification of the store (`FlightFilters`). -/
structure FlightFilters where
  priceRange : PriceRange
  stops : List Nat
  airlines : List String
  sortBy : SortKey
deriving DecidableEq

/-- `DEFAULT_FILTERS` from `src/store/flightStore.ts`. -/
def DEFAULT_FILTERS : FlightFilters :=
  { priceRange := { min := 0, max := 10000 }, stops := [], airlines := [],
    sortBy := .price }

/-- `applyFiltersAndSort`: filter with the three criteria fields, then sort. -/
def applyFiltersAndSort (flights : List FlightCardData) (filters : FlightFilters) :
    List FlightCardData :=
  sortFlights
    (filterFlights flights
      { priceRange := filters.priceRange, stops := filters.stops,
        airlines := filters.airlines })
    filters.sortBy

/-- The Zustand store state (`FlightState`). -/
structure FlightState where
  allFlights : List FlightCardData
  isLoading : Bool
  error : Option String
  filters : FlightFilters
  filteredFlights : List FlightCardData
  chartData : List PriceDataPoint
  availableAirlines : List String
  absolutePriceRange : PriceRange
deriving DecidableEq

/-- The store's initial state. -/
def initialState : FlightState :=
  { allFlights := [], isLoading := false, error := none, filters := DEFAULT_FILTERS,
    filteredFlights := [], chartData := [], availableAirlines := [],
    absolutePriceRange := { min := 0, max := 10000 } }

/-- `setFlights`: ingest a new working set, recompute bounds and the airline
list, reset the filter to defaults with the fresh bounds, and derive the view. -/
def setFlights (flights : List FlightCardData) (state : FlightState) : FlightState :=
  let priceRange := extractPriceRange flights
  let airlines := extractUniqueAirlines flights
  let newFilters : FlightFilters := { DEFAULT_FILTERS with priceRange := priceRange }
  let filtered := applyFiltersAndSort flights newFilters
  let chartData := generatePriceChartData filtered
  { state with
      allFlights := flights, filteredFlights := filtered, chartData := chartData,
      availableAirlines := airlines, absolutePriceRange := priceRange,
      filters := newFilters, isLoading := false, error := none }

/-- A `Partial<FlightFilters>` update: any subset of the fields. -/
structure PartialFlightFilters where
  priceRange : Option PriceRange
  stops : Option (List Nat)
  airlines : Option (List String)
  sortBy : Option SortKey
deriving DecidableEq

/-- Object-spread merge `{...state.filters, ...patch}`. -/
def mergeFilters (current : FlightFilters) (patch : PartialFlightFilters) :
    FlightFilters :=
  { priceRange := patch.priceRange.getD current.priceRange
    stops := patch.stops.getD current.stops
    airlines := patch.airlines.getD current.airlines
    sortBy := patch.sortBy.getD current.sortBy }

/-- `updateFilters`: merge the partial update into the current filter and
recompute the derived view from the (unchanged) working set. -/
def updateFilters (patch : PartialFlightFilters) (state : FlightState) : FlightState :=
  let newFilters := mergeFilters state.filters patch
  let filtered := applyFiltersAndSort state.allFlights newFilters
  let chartData := generatePriceChartData filtered
  { state with filters := newFilters, filteredFlights := filtered, chartData := chartData }

/-- `resetFilters`: defaults except `priceRange`, which is restored to the
stored absolute bounds. -/
def resetFilters (state : FlightState) : FlightState :=
  let freshFilters : FlightFilters :=
    { DEFAULT_FILTERS with priceRange := state.absolutePriceRange }
  let filtered := applyFiltersAndSort state.allFlights freshFilters
  let chartData := generatePriceChartData filtered
  { state with filters := freshFilters, filteredFlights := filtered,
               chartData := chartData }

/-- `clearSearch`: reset every stored field to its initial value. -/
def clearSearch (state : FlightState) : FlightState :=
  { state with
      allFlights := [], filteredFlights := [], chartData := [],
      availableAirlines := [], absolutePriceRange := { min := 0, max := 10000 },
      filters := DEFAULT_FILTERS, isLoading := false, error := none }

/-! Concrete sample data used by counterexamples and witnesses. -/

/-- A well-formed sample offer: one itinerary, one segment. -/
def sampleGoodOffer : FlightOffer :=
  { id := "1"
    itineraries :=
      [{ segments :=
          [{ departure := { iataCode := "JFK", atTime := 600 }
             arrival := { iataCode := "LAX", atTime := 960 }
             carrierCode := "AA" }]
         duration := "PT6H" }]
    price := { currency := "USD", grandTotal := 350 }
    validatingAirlineCodes := ["AA"] }

/-- A structurally malformed sample offer: no itineraries at all. -/
def sampleBadOffer : FlightOffer :=
  { id := "2", itineraries := [], price := { currency := "USD", grandTotal := 200 },
    validatingAirlineCodes := ["DL"] }

/-- A batch holding one good and one malformed offer. -/
def sampleMalformedResponse : AmadeusFlightOffersResponse :=
  { data := [sampleGoodOffer, sampleBadOffer], dictionaries := none }

/-- A three-segment itinerary with layover gaps of 90 and 45 minutes. -/
def sampleThreeSegOffer : FlightOffer :=
  { id := "3"
    itineraries :=
      [{ segments :=
          [{ departure := { iataCode := "AAA", atTime := 0 }
             arrival := { iataCode := "BBB", atTime := 100 }
             carrierCode := "AA" },
           { departure := { iataCode := "BBB", atTime := 190 }
             arrival := { iataCode := "CCC", atTime := 300 }
             carrierCode := "AA" },
           { departure := { iataCode := "CCC", atTime := 345 }
             arrival := { iataCode := "DDD", atTime := 400 }
             carrierCode := "AA" }]
         duration := "PT6H40M" }]
    price := { currency := "USD", grandTotal := 500 }
    validatingAirlineCodes := ["AA"] }

/-- Adjacent segments whose gap is negative: the second departs 30 minutes
before the first arrives. -/
def negGapSeg1 : FlightSegment :=
  { departure := { iataCode := "AAA", atTime := 0 }
    arrival := { iataCode := "BBB", atTime := 1000 }
    carrierCode := "AA" }

/-- Second segment of the negative-gap pair. -/
def negGapSeg2 : FlightSegment :=
  { departure := { iataCode := "BBB", atTime := 970 }
    arrival := { iataCode := "CCC", atTime := 1100 }
    carrierCode := "AA" }

/-- A small sample flight card used by store-level witnesses. -/
def sampleCard (ident : String) (airlineName : String) (p : ℚ) (nStops : Nat) :
    FlightCardData :=
  { id := ident, airline := airlineName, airlineLogo := "", departureTime := "08:00",
    arrivalTime := "11:00", departureAirport := "JFK", arrivalAirport := "LAX",
    duration := "3h", stops := nStops, price := p, currency := "USD",
    segments := [], layovers := [] }


/-- A concrete filter-criteria record used by witnesses. -/
def sampleCriteria : FilterCriteria :=
  { priceRange := { min := 50, max := 200 }, stops := [1, 2], airlines := ["X"] }

/-- A concrete flight card used by witnesses. -/
def sampleFlight1 : FlightCardData := sampleCard "a" "X" 100 1

/-! Helper lemmas. -/

theorem natDigitsGo_spec : ∀ fuel n, n < fuel →
    natDigitsGo fuel n ≠ [] ∧
    parseNatChars (natDigitsGo fuel n) = n ∧
    ∀ c ∈ natDigitsGo fuel n,
      c.isDigit = true ∧ c.isWhitespace = false ∧
      c ≠ 'h' ∧ c ≠ 'H' ∧ c ≠ 'm' ∧ c ≠ 'M' := by
  intro fuel
  induction fuel with
  | zero => intro n h; omega
  | succ fuel ih =>
    intro n h
    by_cases h10 : n < 10
    · rw [natDigitsGo]
      simp only [if_pos h10]
      interval_cases n <;> refine ⟨by simp, by decide, ?_⟩ <;> intro c hc <;>
        simp only [List.mem_singleton] at hc <;> subst hc <;> decide
    · have hdiv : n / 10 < fuel := by omega
      have IH := ih (n / 10) hdiv
      have hm : n % 10 < 10 := by omega
      have hchar : ∀ k, k < 10 →
          (Char.ofNat (48 + k)).toNat - 48 = k ∧
          (Char.ofNat (48 + k)).isDigit = true ∧
          (Char.ofNat (48 + k)).isWhitespace = false ∧
          Char.ofNat (48 + k) ≠ 'h' ∧ Char.ofNat (48 + k) ≠ 'H' ∧
          Char.ofNat (48 + k) ≠ 'm' ∧ Char.ofNat (48 + k) ≠ 'M' := by
        intro k hk; interval_cases k <;> exact ⟨by decide, by decide, by decide,
          by decide, by decide, by decide, by decide⟩
      rw [natDigitsGo]
      simp only [if_neg h10]
      refine ⟨by simp, ?_, ?_⟩
      · unfold parseNatChars
        rw [List.foldl_append]
        have hstep : List.foldl (fun a c => a * 10 + (c.toNat - 48))
            (List.foldl (fun a c => a * 10 + (c.toNat - 48)) 0 (natDigitsGo fuel (n / 10)))
            [Char.ofNat (48 + n % 10)]
            = (List.foldl (fun a c => a * 10 + (c.toNat - 48)) 0
                (natDigitsGo fuel (n / 10))) * 10 +
              ((Char.ofNat (48 + n % 10)).toNat - 48) := rfl
        rw [hstep]
        have hp : List.foldl (fun a c => a * 10 + (c.toNat - 48)) 0
            (natDigitsGo fuel (n / 10)) = n / 10 := IH.2.1
        rw [hp, (hchar (n % 10) hm).1]
        omega
      · intro c hc
        rcases List.mem_append.mp hc with hmem | hmem
        · exact IH.2.2 c hmem
        · simp only [List.mem_singleton] at hmem
          subst hmem
          exact (hchar (n % 10) hm).2

theorem natDigits_ne_nil (n : Nat) : natDigits n ≠ [] :=
  (natDigitsGo_spec (n + 1) n (by omega)).1

theorem parseNatChars_natDigits (n : Nat) : parseNatChars (natDigits n) = n :=
  (natDigitsGo_spec (n + 1) n (by omega)).2.1

theorem natDigits_chars (n : Nat) : ∀ c ∈ natDigits n,
    c.isDigit = true ∧ c.isWhitespace = false ∧
    c ≠ 'h' ∧ c ≠ 'H' ∧ c ≠ 'm' ∧ c ≠ 'M' :=
  (natDigitsGo_spec (n + 1) n (by omega)).2.2

theorem span_prefix (p : Char → Bool) :
    ∀ (ds r : List Char), (∀ c ∈ ds, p c = true) →
    (∀ c, r.head? = some c → p c = false) →
    List.span p (ds ++ r) = (ds, r) := by
  intro ds
  induction ds with
  | nil =>
    intro r _ hr
    cases r with
    | nil => simp [List.span_eq_take_drop]
    | cons c r2 =>
      have hc : p c = false := hr c rfl
      simp [List.span_eq_take_drop, hc]
  | cons d ds ih =>
    intro r hds hr
    have hd : p d = true := hds d (List.mem_cons_self d ds)
    have IH := ih r (fun c hc => hds c (List.mem_cons_of_mem d hc)) hr
    rw [List.span_eq_take_drop] at IH ⊢
    have h1 : List.takeWhile p (ds ++ r) = ds := congrArg Prod.fst IH
    have h2 : List.dropWhile p (ds ++ r) = r := congrArg Prod.snd IH
    simp [List.takeWhile_cons, List.dropWhile_cons, hd, h1, h2]

theorem scanHours_cons (c : Char) (rest : List Char) :
    scanHours (c :: rest) =
      if (List.span Char.isDigit (c :: rest)).1 ≠ [] ∧
          (List.span Char.isDigit (c :: rest)).2.head? = some 'h' then
        some ((List.span Char.isDigit (c :: rest)).1,
              (List.span Char.isDigit (c :: rest)).2.tail)
      else scanHours rest := rfl

theorem scanHours_found (ds rest : List Char) (hne : ds ≠ [])
    (hd : ∀ c ∈ ds, c.isDigit = true) :
    scanHours (ds ++ 'h' :: rest) = some (ds, rest) := by
  cases ds with
  | nil => exact absurd rfl hne
  | cons d ds2 =>
    have hspan : List.span Char.isDigit ((d :: ds2) ++ 'h' :: rest)
        = (d :: ds2, 'h' :: rest) :=
      span_prefix Char.isDigit (d :: ds2) ('h' :: rest) hd
        (by intro c hc; simp only [List.head?_cons, Option.some.injEq] at hc;
            subst hc; decide)
    rw [List.cons_append] at hspan
    rw [List.cons_append, scanHours_cons, hspan]
    simp

theorem scanHours_skip (ds r : List Char)
    (hd : ∀ c ∈ ds, c.isDigit = true)
    (hr : ∀ c, r.head? = some c → (c.isDigit = false ∧ c ≠ 'h')) :
    scanHours (ds ++ r) = scanHours r := by
  induction ds with
  | nil => simp
  | cons d ds2 ih =>
    have hspan : List.span Char.isDigit ((d :: ds2) ++ r) = (d :: ds2, r) :=
      span_prefix Char.isDigit (d :: ds2) r hd
        (by intro c hc; exact (hr c hc).1)
    rw [List.cons_append] at hspan
    have hcond : ¬ ((d :: ds2, r).1 ≠ [] ∧ (d :: ds2, r).2.head? = some 'h') := by
      intro hand
      cases r with
      | nil => simp at hand
      | cons c r2 =>
        have := hr c rfl
        simp only [List.head?_cons, Option.some.injEq] at hand
        exact this.2 hand.2
    rw [List.cons_append, scanHours_cons, hspan, if_neg hcond]
    exact ih (fun c hc => hd c (List.mem_cons_of_mem d hc))

theorem neg_ediv_of_not_dvd {a b : Int} (hb : 0 < b) (h : ¬ b ∣ a) :
    (-a) / b = -(a / b) - 1 := by
  have hmod := Int.ediv_add_emod a b
  have hr0 : 0 ≤ a % b := Int.emod_nonneg a (by omega)
  have hrb : a % b < b := Int.emod_lt_of_pos a hb
  have hrne : a % b ≠ 0 := fun hz => h (Int.dvd_of_emod_eq_zero hz)
  have key : -a = (b - a % b) + (-(a / b) - 1) * b := by linear_combination hmod
  rw [key, Int.add_mul_ediv_right _ _ (by omega : b ≠ 0)]
  have hz : (b - a % b) / b = 0 := Int.ediv_eq_zero_of_lt (by omega) (by omega)
  rw [hz]
  ring

theorem ratCeil_eq_ceil (q : ℚ) : (Rat.ceil q : ℤ) = ⌈q⌉ := by
  have h1 : (⌈q⌉ : ℤ) = -⌊-q⌋ := by rw [Int.floor_neg]; ring
  have h2 : ⌊-q⌋ = Rat.floor (-q) := rfl
  rw [h1, h2]
  unfold Rat.ceil Rat.floor
  simp only [Rat.neg_den, Rat.neg_num]
  by_cases hden : q.den = 1
  · simp [hden]
  · simp only [if_neg hden]
    have hbpos : (0 : ℤ) < (q.den : ℤ) := by exact_mod_cast q.den_pos
    have hnotdvd : ¬ ((q.den : ℤ) ∣ q.num) := by
      intro hdvd
      exact hden (Nat.eq_one_of_dvd_coprimes q.reduced (Int.natCast_dvd.mp hdvd) dvd_rfl)
    have hneg := neg_ediv_of_not_dvd hbpos hnotdvd
    omega

theorem mapOrNone_eq_none {α β : Type} (f : α → Option β) :
    ∀ (l : List α) (a : α), a ∈ l → f a = none → mapOrNone f l = none := by
  intro l
  induction l with
  | nil => intro a ha; simp at ha
  | cons x xs ih =>
    intro a ha hfa
    rw [mapOrNone]
    rcases List.mem_cons.mp ha with h | h
    · subst h; rw [hfa]
    · rw [ih a h hfa]
      cases f x <;> rfl

theorem foldl_min_mem {α : Type} [LinearOrder α] (a : α) (l : List α) :
    l.foldl min a ∈ a :: l := by
  induction l generalizing a with
  | nil => simp
  | cons b t ih =>
    rw [List.foldl_cons]
    rcases List.mem_cons.mp (ih (min a b)) with h1 | h1
    · rcases min_choice a b with hab | hab
      · rw [List.mem_cons]; left; rw [h1, hab]
      · rw [List.mem_cons]; right; rw [List.mem_cons]; left; rw [h1, hab]
    · rw [List.mem_cons]; right; rw [List.mem_cons]; right; exact h1

theorem tmod_nonpos_of_nonpos {a : Int} (b : Int) (ha : a ≤ 0) :
    Int.tmod a b ≤ 0 := by
  cases a with
  | ofNat m =>
    have hm : m = 0 := by simpa using ha
    subst hm
    simp
  | negSucc m =>
    cases b with
    | ofNat n =>
      simp only [Int.tmod]
      exact Int.neg_nonpos_of_nonneg (Int.ofNat_nonneg _)
    | negSucc n =>
      simp only [Int.tmod]
      exact Int.neg_nonpos_of_nonneg (Int.ofNat_nonneg _)

theorem fdiv_nonpos_of_nonpos {a b : Int} (ha : a ≤ 0) (hb : 0 ≤ b) :
    Int.fdiv a b ≤ 0 := by
  cases a with
  | ofNat m =>
    have hm : m = 0 := by simpa using ha
    subst hm
    cases b <;> simp [Int.fdiv]
  | negSucc m =>
    cases b with
    | ofNat n =>
      cases n with
      | zero => simp [Int.fdiv]
      | succ k =>
        simp only [Int.fdiv]
        exact le_of_lt (Int.negSucc_lt_zero _)
    | negSucc n => exact absurd hb (by simp)

theorem foldl_min_le {α : Type} [LinearOrder α] (l : List α) :
    ∀ (a : α), ∀ x ∈ a :: l, l.foldl min a ≤ x := by
  induction l with
  | nil =>
    intro a x hx
    simp only [List.mem_singleton] at hx
    subst hx
    exact le_refl _
  | cons b t ih =>
    intro a x hx
    rw [List.foldl_cons]
    rcases List.mem_cons.mp hx with h | h
    · rw [h]
      exact le_trans (ih (min a b) _ (List.mem_cons_self _ _)) (min_le_left a b)
    · rcases List.mem_cons.mp h with h2 | h2
      · rw [h2]
        exact le_trans (ih (min a b) _ (List.mem_cons_self _ _)) (min_le_right a b)
      · exact ih (min a b) x (List.mem_cons_of_mem _ h2)

theorem foldl_max_mem {α : Type} [LinearOrder α] (a : α) (l : List α) :
    l.foldl max a ∈ a :: l := by
  induction l generalizing a with
  | nil => simp
  | cons b t ih =>
    rw [List.foldl_cons]
    rcases List.mem_cons.mp (ih (max a b)) with h1 | h1
    · rcases max_choice a b with hab | hab
      · rw [List.mem_cons]; left; rw [h1, hab]
      · rw [List.mem_cons]; right; rw [List.mem_cons]; left; rw [h1, hab]
    · rw [List.mem_cons]; right; rw [List.mem_cons]; right; exact h1

theorem le_foldl_max {α : Type} [LinearOrder α] (l : List α) :
    ∀ (a : α), ∀ x ∈ a :: l, x ≤ l.foldl max a := by
  induction l with
  | nil =>
    intro a x hx
    simp only [List.mem_singleton] at hx
    subst hx
    exact le_refl _
  | cons b t ih =>
    intro a x hx
    rw [List.foldl_cons]
    rcases List.mem_cons.mp hx with h | h
    · rw [h]
      exact le_trans (le_max_left a b) (ih (max a b) _ (List.mem_cons_self _ _))
    · rcases List.mem_cons.mp h with h2 | h2
      · rw [h2]
        exact le_trans (le_max_right a b) (ih (max a b) _ (List.mem_cons_self _ _))
      · exact ih (max a b) x (List.mem_cons_of_mem _ h2)

theorem getLayovers_pair (s1 s2 : FlightSegment) (rest : List FlightSegment) :
    getLayovers (s1 :: s2 :: rest) =
      (s1.arrival.iataCode ++ " (" ++
        (if Int.fdiv (s2.departure.atTime - s1.arrival.atTime) 60 > 0 then
          intStr (Int.fdiv (s2.departure.atTime - s1.arrival.atTime) 60) ++ "h " ++
          intStr (Int.tmod (s2.departure.atTime - s1.arrival.atTime) 60) ++ "m"
        else intStr (Int.tmod (s2.departure.atTime - s1.arrival.atTime) 60) ++ "m")
        ++ ")") :: getLayovers (s2 :: rest) := rfl

/-! Claim theorems. -/

/-- C1 counterexample: a batch holding one well-formed and one malformed
offer.  The claim says the batch normalizer drops the malformed offer and
returns the remaining normalized flights; in the code the failure propagates
and the whole batch fails (`none`), even though a usable record exists. -/
theorem transformFlightOffers_no_drop_counterexample :
    transformFlightOffers sampleMalformedResponse = none ∧
    transformFlightOffer sampleGoodOffer none ≠ none := by
  exact ⟨by decide, by decide⟩

/-- C1 (amended): `transformFlightOffer` fails (throws, modelled as `none`)
exactly on structurally malformed offers — no itineraries, or an empty
segment list in the first itinerary — producing no partial record; and
`transformFlightOffers` maps it over the batch with the shared carrier
dictionary and propagates any single failure as a failure of the whole batch
(nothing is dropped or counted). -/
theorem transformFlightOffer_malformed_propagates
    (offer : FlightOffer) (d : Option (List (String × String)))
    (resp : AmadeusFlightOffersResponse) :
    (transformFlightOffer offer d = none ↔ isMalformed offer = true) ∧
    (offer ∈ resp.data → isMalformed offer = true →
      transformFlightOffers resp = none) := by
  have hiff : ∀ (o : FlightOffer) (d2 : Option (List (String × String))),
      transformFlightOffer o d2 = none ↔ isMalformed o = true := by
    intro o d2
    unfold transformFlightOffer isMalformed
    cases o.itineraries with
    | nil => simp
    | cons it rest =>
      cases hseg : it.segments with
      | nil => simp [hseg]
      | cons s ss => simp [hseg]
  refine ⟨hiff offer d, ?_⟩
  intro hmem hmal
  unfold transformFlightOffers
  exact mapOrNone_eq_none _ resp.data offer hmem ((hiff offer _).mpr hmal)

/-- C1 witness: the amended theorem applied to the concrete mixed batch. -/
theorem transformFlightOffer_malformed_propagates_witness :
    transformFlightOffers sampleMalformedResponse = none :=
  (transformFlightOffer_malformed_propagates sampleBadOffer none
    sampleMalformedResponse).2 (by decide) (by decide)

/-- C8 counterexample: neither the initial state nor the state after
`clearSearch` has bounds `{min: 0, max: 1000}` — both use `{0, 10000}`. -/
theorem empty_state_bounds_counterexample :
    (clearSearch initialState).absolutePriceRange ≠ { min := 0, max := 1000 } ∧
    initialState.absolutePriceRange ≠ { min := 0, max := 1000 } := by
  exact ⟨by decide, by decide⟩

/-- C8 (amended): in the Empty state — initially and after `clearSearch` —
the bounds are the default `{min: 0, max: 10000}` (from
`PRICE_RANGE_DEFAULTS` / `DEFAULT_FILTERS`), the current view is empty, the
airline list is empty and the filter is the default. -/
theorem empty_state_defaults (s : FlightState) :
    initialState.absolutePriceRange = { min := 0, max := 10000 } ∧
    initialState.filteredFlights = [] ∧
    initialState.filters = DEFAULT_FILTERS ∧
    (clearSearch s).absolutePriceRange = { min := 0, max := 10000 } ∧
    (clearSearch s).filteredFlights = [] ∧
    (clearSearch s).availableAirlines = [] ∧
    (clearSearch s).filters = DEFAULT_FILTERS :=
  ⟨rfl, rfl, rfl, rfl, rfl, rfl, rfl⟩

/-- C9 counterexample: the per-search dictionary contains an entry for `AA`,
namely the empty string, yet resolution does not return that entry — the
JavaScript `||` treats `""` as falsy, so the static table wins instead. -/
theorem dictionary_empty_entry_counterexample :
    getAirlineName "AA" (some [("AA", "")]) = "American Airlines" ∧
    ("American Airlines" : String) ≠ "" := by
  exact ⟨by decide, by decide⟩

/-- C9 (amended): resolution tries the per-search dictionary, then the static
table, then the raw code, where each tier wins only with a non-empty string:
a non-empty dictionary entry always beats the static table, an empty-string
dictionary entry falls through, a non-empty static entry beats the raw code,
and with no entry anywhere the code itself is returned.  Scenario A holds. -/
theorem airline_name_precedence (code name entry2 : String)
    (dict : List (String × String)) :
    (dict.lookup code = some name → name ≠ "" →
      getAirlineName code (some dict) = name) ∧
    (dict.lookup code = some "" →
      getAirlineName code (some dict) = jsStrOr (AIRLINE_NAMES.lookup code) code) ∧
    (dict.lookup code = none → AIRLINE_NAMES.lookup code = some entry2 →
      entry2 ≠ "" → getAirlineName code (some dict) = entry2) ∧
    (dict.lookup code = none → AIRLINE_NAMES.lookup code = none →
      getAirlineName code (some dict) = code) ∧
    getAirlineName "AA" (some [("AA", "American Air")]) = "American Air" := by
  refine ⟨?_, ?_, ?_, ?_, by decide⟩
  · intro hl hne
    unfold getAirlineName
    simp [hl, jsStrOr, hne]
  · intro hl
    unfold getAirlineName
    simp [hl, jsStrOr]
  · intro hl hs hne
    unfold getAirlineName
    simp [hl, hs, jsStrOr, hne]
  · intro hl hs
    unfold getAirlineName
    simp [hl, hs, jsStrOr]

/-- C9 witness: a non-empty dictionary entry wins at a concrete input. -/
theorem airline_name_precedence_witness :
    getAirlineName "QF" (some [("QF", "Qantas Intl")]) = "Qantas Intl" :=
  (airline_name_precedence "QF" "Qantas Intl" "x" [("QF", "Qantas Intl")]).1
    (by decide) (by decide)

/-- C5 counterexample: normalizing the concrete three-segment offer with gaps
of 90 and 45 minutes yields second layover label `"CCC (45m)"`, not the
`"CCC (0h 45m)"` the claim states (no hour part is rendered when the floored
hour count is zero). -/
theorem layover_45m_label_counterexample :
    (transformFlightOffer sampleThreeSegOffer none).map (fun card => card.layovers)
      = some ["BBB (1h 30m)", "CCC (45m)"] ∧
    (some ["BBB (1h 30m)", "CCC (45m)"] : Option (List String))
      ≠ some ["BBB (1h 30m)", "CCC (0h 45m)"] ∧
    (transformFlightOffer sampleThreeSegOffer none).map (fun card => card.stops)
      = some 2 := by
  exact ⟨by decide, by decide, by decide⟩

/-- C5 (amended): for any three segments with inter-segment gaps of 90 and 45
minutes, the stop count is 2 and the layovers are
`["<airport1> (1h 30m)", "<airport2> (45m)"]` — the second label has no hour
part because the floored hour count is zero. -/
theorem three_segment_layovers (a b c : FlightSegment)
    (h1 : b.departure.atTime - a.arrival.atTime = 90)
    (h2 : c.departure.atTime - b.arrival.atTime = 45) :
    calculateStops [a, b, c] = 2 ∧
    getLayovers [a, b, c] =
      [a.arrival.iataCode ++ " (1h 30m)", b.arrival.iataCode ++ " (45m)"] := by
  refine ⟨rfl, ?_⟩
  rw [getLayovers_pair, getLayovers_pair, h1, h2]
  have e1 : Int.fdiv 90 60 = 1 := by decide
  have e2 : Int.tmod 90 60 = 30 := by decide
  have e3 : Int.fdiv 45 60 = 0 := by decide
  have e4 : Int.tmod 45 60 = 45 := by decide
  rw [e1, e2, e3, e4]
  rw [if_pos (by norm_num : (1:Int) > 0), if_neg (by norm_num : ¬ ((0:Int) > 0))]
  have hnil : getLayovers [c] = [] := rfl
  rw [hnil]
  have s1 : intStr 1 = "1" := by decide
  have s2 : intStr 30 = "30" := by decide
  have s3 : intStr 45 = "45" := by decide
  rw [s1, s2, s3]
  congr 1
  · apply String.ext
    simp [String.data_append,
      show (" (1h 30m)" : String).data = [' ','(','1','h',' ','3','0','m',')'] from rfl,
      show (" (" : String).data = [' ','('] from rfl,
      show ("1" : String).data = ['1'] from rfl,
      show ("h " : String).data = ['h',' '] from rfl,
      show ("30" : String).data = ['3','0'] from rfl,
      show ("m" : String).data = ['m'] from rfl,
      show (")" : String).data = [')'] from rfl]
  · congr 1
    apply String.ext
    simp [String.data_append,
      show (" (45m)" : String).data = [' ','(','4','5','m',')'] from rfl,
      show (" (" : String).data = [' ','('] from rfl,
      show ("45" : String).data = ['4','5'] from rfl,
      show ("m" : String).data = ['m'] from rfl,
      show (")" : String).data = [')'] from rfl]

/-- C5 witness: the amended statement at concrete segments. -/
theorem three_segment_layovers_witness :
    calculateStops
        [⟨⟨"AAA", 0⟩, ⟨"BBB", 100⟩, "AA"⟩, ⟨⟨"BBB", 190⟩, ⟨"CCC", 300⟩, "AA"⟩,
         ⟨⟨"CCC", 345⟩, ⟨"DDD", 400⟩, "AA"⟩] = 2 ∧
    getLayovers
        [⟨⟨"AAA", 0⟩, ⟨"BBB", 100⟩, "AA"⟩, ⟨⟨"BBB", 190⟩, ⟨"CCC", 300⟩, "AA"⟩,
         ⟨⟨"CCC", 345⟩, ⟨"DDD", 400⟩, "AA"⟩]
      = ["BBB" ++ " (1h 30m)", "CCC" ++ " (45m)"] :=
  three_segment_layovers _ _ _ (by decide) (by decide)

/-- C6 counterexample: a pair of segments whose gap is −30 minutes renders
the label `"BBB (-30m)"` — a negative duration, not the zero-clamped
`"BBB (0m)"` the claim states. -/
theorem negative_gap_label_counterexample :
    getLayovers [negGapSeg1, negGapSeg2] = ["BBB (-30m)"] ∧
    (["BBB (-30m)"] : List String) ≠ ["BBB (0m)"] := by
  exact ⟨by decide, by decide⟩

/-- C6 (amended): on a zero or negative gap the layover computation is total
(never raises) and renders the truncated remainder `gap % 60` — which is
non-positive, so a zero gap gives `"(0m)"` but a strictly negative gap gives
a negative minutes label such as `"(-30m)"`; nothing is clamped to zero. -/
theorem negative_gap_no_crash (a b : FlightSegment)
    (h : b.departure.atTime - a.arrival.atTime ≤ 0) :
    getLayovers [a, b] =
      [a.arrival.iataCode ++ " (" ++
        intStr (Int.tmod (b.departure.atTime - a.arrival.atTime) 60) ++ "m)"] ∧
    Int.tmod (b.departure.atTime - a.arrival.atTime) 60 ≤ 0 := by
  have hh : ¬ (Int.fdiv (b.departure.atTime - a.arrival.atTime) 60 > 0) := by
    have := fdiv_nonpos_of_nonpos h (by norm_num : (0:Int) ≤ 60)
    omega
  refine ⟨?_, tmod_nonpos_of_nonpos 60 h⟩
  rw [getLayovers_pair, if_neg hh]
  have hnil : getLayovers [b] = [] := rfl
  rw [hnil]
  congr 1
  apply String.ext
  simp only [String.data_append]
  simp [show ("m)" : String).data = ['m', ')'] from rfl,
    show ("m" : String).data = ['m'] from rfl,
    show (")" : String).data = [')'] from rfl]

/-- C6 witness: the amended statement at the concrete negative-gap pair. -/
theorem negative_gap_no_crash_witness :
    getLayovers [negGapSeg1, negGapSeg2] =
      [negGapSeg1.arrival.iataCode ++ " (" ++
        intStr (Int.tmod (negGapSeg2.departure.atTime - negGapSeg1.arrival.atTime) 60)
        ++ "m)"] ∧
    Int.tmod (negGapSeg2.departure.atTime - negGapSeg1.arrival.atTime) 60 ≤ 0 :=
  negative_gap_no_crash negGapSeg1 negGapSeg2 (by decide)

/-- C3 (confirmed): a flight of the input list is in the filtered result iff
its price lies in the inclusive window, some selected stop bucket matches
(bucket 2 means two or more, any other bucket is exact; empty bucket list
passes all), and its airline display name is selected (empty list passes
all). -/
theorem filterFlights_mem_iff (flights : List FlightCardData)
    (filters : FilterCriteria) (flight : FlightCardData) (hmem : flight ∈ flights) :
    flight ∈ filterFlights flights filters ↔
      (filters.priceRange.min ≤ flight.price ∧
        flight.price ≤ filters.priceRange.max) ∧
      (filters.stops = [] ∨ ∃ n ∈ filters.stops,
        if n = 2 then 2 ≤ flight.stops else flight.stops = n) ∧
      (filters.airlines = [] ∨ flight.airline ∈ filters.airlines) := by
  unfold filterFlights
  rw [List.mem_filter]
  simp only [hmem, true_and]
  constructor
  · intro h
    split_ifs at h with h1 h2 h3
    push_neg at h1
    refine ⟨h1, ?_, ?_⟩
    · rcases not_and_or.mp h2 with hs | hs
      · left
        have h0 : filters.stops.length = 0 := by omega
        exact List.length_eq_zero.mp h0
      · right
        have hany : (filters.stops.any fun stopCount =>
            if stopCount = 2 then decide (2 ≤ flight.stops)
            else decide (flight.stops = stopCount)) = true := by
          cases hb : (filters.stops.any fun stopCount =>
              if stopCount = 2 then decide (2 ≤ flight.stops)
              else decide (flight.stops = stopCount)) with
          | false => exact absurd hb hs
          | true => rfl
        rcases List.any_eq_true.mp hany with ⟨n, hn, hp⟩
        refine ⟨n, hn, ?_⟩
        by_cases hn2 : n = 2
        · simp [hn2] at hp ⊢
          exact hp
        · simp [hn2] at hp ⊢
          exact hp
    · rcases not_and_or.mp h3 with ha | ha
      · left
        have h0 : filters.airlines.length = 0 := by omega
        exact List.length_eq_zero.mp h0
      · right
        exact not_not.mp ha
  · intro hr
    rcases hr with ⟨⟨hpl, hpu⟩, hstop, hair⟩
    have h1 : ¬ (flight.price < filters.priceRange.min ∨
        filters.priceRange.max < flight.price) := by
      push_neg
      exact ⟨hpl, hpu⟩
    rw [if_neg h1]
    have h2 : ¬ (0 < filters.stops.length ∧
        (filters.stops.any fun stopCount =>
          if stopCount = 2 then decide (2 ≤ flight.stops)
          else decide (flight.stops = stopCount)) = false) := by
      rcases hstop with hnil | ⟨n, hn, hp⟩
      · intro hand
        rw [hnil] at hand
        simp at hand
      · intro hand
        have hany : (filters.stops.any fun stopCount =>
            if stopCount = 2 then decide (2 ≤ flight.stops)
            else decide (flight.stops = stopCount)) = true := by
          refine List.any_eq_true.mpr ⟨n, hn, ?_⟩
          by_cases hn2 : n = 2
          · simp [hn2] at hp ⊢
            exact hp
          · simp [hn2] at hp ⊢
            exact hp
        rw [hany] at hand
        simp at hand
    rw [if_neg h2]
    have h3 : ¬ (0 < filters.airlines.length ∧ flight.airline ∉ filters.airlines) := by
      rcases hair with hnil | hmem2
      · intro hand
        rw [hnil] at hand
        simp at hand
      · intro hand
        exact hand.2 hmem2
    rw [if_neg h3]

/-- C3 witness: the characterization at a concrete flight and filter. -/
theorem filterFlights_mem_iff_witness :
    sampleFlight1 ∈ filterFlights [sampleFlight1] sampleCriteria ↔
      (sampleCriteria.priceRange.min ≤ sampleFlight1.price ∧
        sampleFlight1.price ≤ sampleCriteria.priceRange.max) ∧
      (sampleCriteria.stops = [] ∨ ∃ n ∈ sampleCriteria.stops,
        if n = 2 then 2 ≤ sampleFlight1.stops else sampleFlight1.stops = n) ∧
      (sampleCriteria.airlines = [] ∨ sampleFlight1.airline ∈ sampleCriteria.airlines) :=
  filterFlights_mem_iff [sampleFlight1] sampleCriteria sampleFlight1 (by decide)

/-- C4 (confirmed): `updateFilters` merges the partial update into the
current filter (a missing field keeps its previous value via `Option.getD`)
and recomputes only the derived view and chart series from the unchanged
working set; the working set, the airline list, the absolute bounds, the
loading flag and the error are untouched. -/
theorem updateFilters_merges_and_frames (s : FlightState)
    (patch : PartialFlightFilters) :
    (updateFilters patch s).allFlights = s.allFlights ∧
    (updateFilters patch s).availableAirlines = s.availableAirlines ∧
    (updateFilters patch s).absolutePriceRange = s.absolutePriceRange ∧
    (updateFilters patch s).isLoading = s.isLoading ∧
    (updateFilters patch s).error = s.error ∧
    (updateFilters patch s).filters.priceRange
      = patch.priceRange.getD s.filters.priceRange ∧
    (updateFilters patch s).filters.stops = patch.stops.getD s.filters.stops ∧
    (updateFilters patch s).filters.airlines
      = patch.airlines.getD s.filters.airlines ∧
    (updateFilters patch s).filters.sortBy = patch.sortBy.getD s.filters.sortBy ∧
    (updateFilters patch s).filteredFlights
      = applyFiltersAndSort s.allFlights (mergeFilters s.filters patch) ∧
    (updateFilters patch s).chartData
      = generatePriceChartData ((updateFilters patch s).filteredFlights) :=
  ⟨rfl, rfl, rfl, rfl, rfl, rfl, rfl, rfl, rfl, rfl, rfl⟩

/-- C10 (confirmed): `sortFlights` only permutes — in this pure embedding it
cannot mutate its argument, and the store-level consequence holds exactly:
every filter/sort derivation (`updateFilters`, `resetFilters`) recomputes the
view with `sortFlights`/`filterFlights` while storing the working set
unchanged, in its original order. -/
theorem working_set_stable_under_derivation (s : FlightState)
    (patch : PartialFlightFilters) (flights : List FlightCardData) (k : SortKey) :
    (updateFilters patch s).allFlights = s.allFlights ∧
    (resetFilters s).allFlights = s.allFlights ∧
    (sortFlights flights k).Perm flights ∧
    (updateFilters patch s).filteredFlights
      = sortFlights
          (filterFlights s.allFlights
            { priceRange := (mergeFilters s.filters patch).priceRange,
              stops := (mergeFilters s.filters patch).stops,
              airlines := (mergeFilters s.filters patch).airlines })
          (mergeFilters s.filters patch).sortBy ∧
    (resetFilters s).filteredFlights
      = sortFlights
          (filterFlights s.allFlights
            { priceRange := s.absolutePriceRange, stops := DEFAULT_FILTERS.stops,
              airlines := DEFAULT_FILTERS.airlines })
          DEFAULT_FILTERS.sortBy := by
  refine ⟨rfl, rfl, ?_, rfl, rfl⟩
  cases k <;> exact List.perm_insertionSort _ _

/-- C2 (confirmed): ingesting a working set recomputes the absolute bounds as
the floor of the minimum price and the ceiling of the maximum price (or
`{0, 1000}` for an empty list) and resets the filter to the defaults with
`priceRange` set to those fresh bounds; `setFlights []` yields bounds
`{0, 1000}`, an empty view and an empty airline list. -/
theorem setFlights_recomputes_bounds_and_resets_filter (s : FlightState)
    (flights : List FlightCardData) :
    (setFlights flights s).absolutePriceRange = extractPriceRange flights ∧
    (setFlights flights s).filters
      = { DEFAULT_FILTERS with priceRange := extractPriceRange flights } ∧
    (flights = [] → extractPriceRange flights = { min := 0, max := 1000 }) ∧
    (flights ≠ [] → ∃ pmin ∈ flights.map (fun f => f.price),
        (∀ q ∈ flights.map (fun f => f.price), pmin ≤ q) ∧
        (extractPriceRange flights).min = ((⌊pmin⌋ : ℤ) : ℚ)) ∧
    (flights ≠ [] → ∃ pmax ∈ flights.map (fun f => f.price),
        (∀ q ∈ flights.map (fun f => f.price), q ≤ pmax) ∧
        (extractPriceRange flights).max = ((⌈pmax⌉ : ℤ) : ℚ)) ∧
    (setFlights [] s).absolutePriceRange = { min := 0, max := 1000 } ∧
    (setFlights [] s).filteredFlights = [] ∧
    (setFlights [] s).availableAirlines = [] := by
  refine ⟨rfl, rfl, ?_, ?_, ?_, rfl, rfl, rfl⟩
  · intro h
    subst h
    rfl
  · intro hne
    cases flights with
    | nil => exact absurd rfl hne
    | cons f rest =>
      refine ⟨((f :: rest).map fun x => x.price).foldl min f.price, ?_, ?_, ?_⟩
      · have hmem := foldl_min_mem f.price ((f :: rest).map fun x => x.price)
        rcases List.mem_cons.mp hmem with h1 | h1
        · rw [h1]
          exact List.mem_map.mpr ⟨f, List.mem_cons_self _ _, rfl⟩
        · exact h1
      · intro q hq
        exact foldl_min_le _ f.price q (List.mem_cons_of_mem _ hq)
      · rfl
  · intro hne
    cases flights with
    | nil => exact absurd rfl hne
    | cons f rest =>
      refine ⟨((f :: rest).map fun x => x.price).foldl max f.price, ?_, ?_, ?_⟩
      · have hmem := foldl_max_mem f.price ((f :: rest).map fun x => x.price)
        rcases List.mem_cons.mp hmem with h1 | h1
        · rw [h1]
          exact List.mem_map.mpr ⟨f, List.mem_cons_self _ _, rfl⟩
        · exact h1
      · intro q hq
        exact le_foldl_max _ f.price q (List.mem_cons_of_mem _ hq)
      · show (extractPriceRange (f :: rest)).max = _
        have hceil : (extractPriceRange (f :: rest)).max
            = ((Rat.ceil (((f :: rest).map fun x => x.price).foldl max f.price) : ℤ) : ℚ) :=
          rfl
        rw [hceil, ratCeil_eq_ceil]

/-- C2 witness: the ingestion contract at a concrete two-flight list with
fractional prices, and the empty-list scenario. -/
theorem setFlights_recomputes_bounds_witness :
    (setFlights [] initialState).absolutePriceRange = { min := 0, max := 1000 } ∧
    (∃ pmin ∈ ([sampleCard "a" "X" (mkRat 201 2) 0,
          sampleCard "b" "Y" (mkRat 4501 5) 1].map fun f => f.price),
        (∀ q ∈ ([sampleCard "a" "X" (mkRat 201 2) 0,
            sampleCard "b" "Y" (mkRat 4501 5) 1].map fun f => f.price), pmin ≤ q) ∧
        (extractPriceRange [sampleCard "a" "X" (mkRat 201 2) 0,
            sampleCard "b" "Y" (mkRat 4501 5) 1]).min = ((⌊pmin⌋ : ℤ) : ℚ)) :=
  ⟨(setFlights_recomputes_bounds_and_resets_filter initialState []).2.2.2.2.2.1,
    (setFlights_recomputes_bounds_and_resets_filter initialState
      [sampleCard "a" "X" (mkRat 201 2) 0,
        sampleCard "b" "Y" (mkRat 4501 5) 1]).2.2.2.1 (by decide)⟩

theorem parse_label_hours_minutes (h m : Nat) :
    parseDurationToMinutes (natStr h ++ "h " ++ natStr m ++ "m") = h * 60 + m := by
  obtain ⟨dm, dsm, hnm⟩ : ∃ d ds, natDigits m = d :: ds := by
    cases hx : natDigits m with
    | nil => exact absurd hx (natDigits_ne_nil m)
    | cons d ds => exact ⟨d, ds, rfl⟩
  have hdata : (natStr h ++ "h " ++ natStr m ++ "m").data
      = natDigits h ++ 'h' :: (' ' :: (natDigits m ++ ['m'])) := by
    simp [String.data_append, natStr,
      show ("h " : String).data = ['h', ' '] from rfl,
      show ("m" : String).data = ['m'] from rfl]
  have hscan : scanHours (natDigits h ++ 'h' :: (' ' :: (natDigits m ++ ['m'])))
      = some (natDigits h, ' ' :: (natDigits m ++ ['m'])) :=
    scanHours_found _ _ (natDigits_ne_nil h)
      (fun c hc => (natDigits_chars h c hc).1)
  have hws : List.span Char.isWhitespace (' ' :: (natDigits m ++ ['m']))
      = ([' '], natDigits m ++ ['m']) := by
    have hsp := span_prefix Char.isWhitespace [' '] (natDigits m ++ ['m'])
      (by intro c hc; simp only [List.mem_singleton] at hc; subst hc; decide)
      (by intro c hc
          rw [hnm] at hc
          simp only [List.cons_append, List.head?_cons, Option.some.injEq] at hc
          subst hc
          have hdm : dm ∈ natDigits m := by rw [hnm]; exact List.mem_cons_self _ _
          exact (natDigits_chars m dm hdm).2.1)
    simpa using hsp
  have hdg : List.span Char.isDigit (natDigits m ++ ['m']) = (natDigits m, ['m']) :=
    span_prefix Char.isDigit (natDigits m) ['m']
      (fun c hc => (natDigits_chars m c hc).1)
      (by intro c hc; simp only [List.head?_cons, Option.some.injEq] at hc
          subst hc; decide)
  unfold parseDurationToMinutes
  rw [hdata, hscan]
  simp only [hws, hdg]
  rw [if_neg (by rw [hnm]; simp)]
  rw [parseNatChars_natDigits, parseNatChars_natDigits]

theorem parse_label_hours_only (h : Nat) :
    parseDurationToMinutes (natStr h ++ "h") = h * 60 := by
  have hdata : (natStr h ++ "h").data = natDigits h ++ 'h' :: [] := by
    simp [String.data_append, natStr, show ("h" : String).data = ['h'] from rfl]
  have hscan : scanHours (natDigits h ++ 'h' :: []) = some (natDigits h, []) :=
    scanHours_found _ _ (natDigits_ne_nil h)
      (fun c hc => (natDigits_chars h c hc).1)
  unfold parseDurationToMinutes
  rw [hdata, hscan]
  simp [List.span_eq_take_drop, parseNatChars_natDigits]

theorem parse_label_minutes_only (m : Nat) :
    parseDurationToMinutes (natStr m ++ "m") = 0 := by
  have hdata : (natStr m ++ "m").data = natDigits m ++ ['m'] := by
    simp [String.data_append, natStr, show ("m" : String).data = ['m'] from rfl]
  have hskip : scanHours (natDigits m ++ ['m']) = scanHours ['m'] :=
    scanHours_skip (natDigits m) ['m']
      (fun c hc => (natDigits_chars m c hc).1)
      (by intro c hc; simp only [List.head?_cons, Option.some.injEq] at hc
          subst hc; exact ⟨by decide, by decide⟩)
  have hnone : scanHours ['m'] = none := by decide
  unfold parseDurationToMinutes
  rw [hdata, hskip, hnone]

theorem parseDuration_renders_label (h m : Nat) (hh : 0 < h) (hm : 0 < m) :
    parseDuration ("PT" ++ natStr h ++ "H" ++ natStr m ++ "M")
      = natStr h ++ "h " ++ natStr m ++ "m" := by
  have hdata : ("PT" ++ natStr h ++ "H" ++ natStr m ++ "M").data
      = 'P' :: 'T' :: (natDigits h ++ 'H' :: (natDigits m ++ ['M'])) := by
    simp [String.data_append, natStr,
      show ("PT" : String).data = ['P', 'T'] from rfl,
      show ("H" : String).data = ['H'] from rfl,
      show ("M" : String).data = ['M'] from rfl]
  have hfind : findPT ('P' :: 'T' :: (natDigits h ++ 'H' :: (natDigits m ++ ['M'])))
      = some (natDigits h ++ 'H' :: (natDigits m ++ ['M'])) := rfl
  have hs1 : List.span Char.isDigit (natDigits h ++ 'H' :: (natDigits m ++ ['M']))
      = (natDigits h, 'H' :: (natDigits m ++ ['M'])) :=
    span_prefix Char.isDigit _ _
      (fun c hc => (natDigits_chars h c hc).1)
      (by intro c hc; simp only [List.head?_cons, Option.some.injEq] at hc
          subst hc; decide)
  have hs2 : List.span Char.isDigit (natDigits m ++ ['M']) = (natDigits m, ['M']) :=
    span_prefix Char.isDigit _ _
      (fun c hc => (natDigits_chars m c hc).1)
      (by intro c hc; simp only [List.head?_cons, Option.some.injEq] at hc
          subst hc; decide)
  have hafter : parseAfterPT (natDigits h ++ 'H' :: (natDigits m ++ ['M']))
      = (some h, some m) := by
    unfold parseAfterPT
    simp only [hs1]
    rw [if_pos ⟨natDigits_ne_nil h, rfl⟩]
    simp only [List.tail_cons, hs2]
    rw [if_pos ⟨natDigits_ne_nil m, rfl⟩]
    rw [parseNatChars_natDigits, parseNatChars_natDigits]
  unfold parseDuration
  rw [hdata, hfind]
  simp only [hafter, Option.getD_some]
  rw [if_pos ⟨by omega, by omega⟩]

/-- C7 counterexample: `"PT45M"` renders as `"45m"` — a label of the claimed
`"{m}m"` shape — yet the minute parser recovers 0 minutes, not 45, because
its regex requires an `h` part. -/
theorem minutes_only_label_counterexample :
    parseDuration "PT45M" = "45m" ∧
    parseDurationToMinutes "45m" = 0 ∧
    (0 : Nat) ≠ 45 := by
  exact ⟨by decide, by decide, by decide⟩

/-- C7 (amended): the minute parser recovers `h*60 + m` from labels of the
shapes `"{h}h {m}m"` and `"{h}h"`, but a minutes-only label `"{m}m"` is not
recognized (the regex requires an `h` part) and parses to 0, sorting first;
rendering `PT{h}H{m}M` and parsing back recovers `h*60 + m`, and in
particular the rendered form of `"PT2H30M"` parses to 150 minutes. -/
theorem duration_label_roundtrip (h m : Nat) (hh : 0 < h) (hm : 0 < m) :
    parseDurationToMinutes (natStr h ++ "h " ++ natStr m ++ "m") = h * 60 + m ∧
    parseDurationToMinutes (natStr h ++ "h") = h * 60 ∧
    parseDurationToMinutes (natStr m ++ "m") = 0 ∧
    parseDuration ("PT" ++ natStr h ++ "H" ++ natStr m ++ "M")
      = natStr h ++ "h " ++ natStr m ++ "m" ∧
    parseDurationToMinutes
        (parseDuration ("PT" ++ natStr h ++ "H" ++ natStr m ++ "M")) = h * 60 + m ∧
    parseDurationToMinutes (parseDuration "PT2H30M") = 150 := by
  refine ⟨parse_label_hours_minutes h m, parse_label_hours_only h,
    parse_label_minutes_only m, parseDuration_renders_label h m hh hm, ?_, by decide⟩
  rw [parseDuration_renders_label h m hh hm]
  exact parse_label_hours_minutes h m

/-- C7 witness: the round trip at the concrete duration `"PT2H30M"`. -/
theorem duration_label_roundtrip_witness :
    parseDurationToMinutes (parseDuration "PT2H30M") = 150 :=
  (duration_label_roundtrip 2 30 (by decide) (by decide)).2.2.2.2.2
